import Mathlib

/-!
Shallow embedding of the inbound group session ("room key") core and the
backup-envelope signing core of the matrix-rust-sdk crypto crate:

* `src/crates/matrix-sdk-crypto/src/olm/group_sessions/inbound.rs`
* `src/crates/matrix-sdk-crypto/src/backups/keys/backup.rs`

External collaborators (the vodozemac megolm ratchet, the ruma canonical
JSON encoder, HMAC-SHA-256, base64, the asymmetric `PkEncryption`
primitive) are not part of the repository source; they are modelled here
as executable Lean definitions faithful to their documented behaviour,
each marked by a doc comment.
-/

namespace MatrixSdkCrypto

/-- `SigningKeys<DeviceKeyAlgorithm>`: a map from a device key algorithm name
to a public signing key, modelled as an association list. -/
def SigningKeys := List (String × String)

instance : DecidableEq SigningKeys := fun a b => List.hasDecEq a b

/-- `UnauthenticatedSource` from the backed-up room key types: the reason a
backed-up key is not fully authenticated. -/
inductive UnauthenticatedSource where
  | Forwarded
  | Undefined
deriving DecidableEq, Repr

/-- `KeySource` (inbound.rs lines 104-115): where the room key was obtained
from. -/
inductive KeySource where
  | Direct
  | Backup (unauthenticated : Option UnauthenticatedSource)
  | Forward
  | OldStyleImport
deriving DecidableEq, Repr

/-- `EventEncryptionAlgorithm`: the messaging algorithm identifier. The
`m.megolm.v2.aes-sha2` variant is gated behind the (disabled)
`experimental-algorithms` feature and is represented by `UnknownAlgorithm`. -/
inductive EventEncryptionAlgorithm where
  | MegolmV1AesSha2
  | UnknownAlgorithm (name : String)
deriving DecidableEq, Repr

/-- `vodozemac::megolm::SessionConfig`. -/
inductive SessionConfig where
  | V1
  | V2
deriving DecidableEq, Repr

/-- `SessionCreationError`: construction fails when the algorithm is not
recognized. -/
inductive SessionCreationError where
  | Algorithm (name : String)
deriving DecidableEq, Repr

/-- Modelled from the spec: `OutboundGroupSession::session_config`
(outbound.rs is not part of the provided sources).  The spec (section 4.1)
says construction "fails with a `SessionCreationError` if the algorithm is
unrecognized"; the v1 algorithm maps to the v1 session configuration. -/
def session_config (algorithm : EventEncryptionAlgorithm) :
    Except SessionCreationError SessionConfig :=
  match algorithm with
  | .MegolmV1AesSha2 => .ok .V1
  | .UnknownAlgorithm name => .error (.Algorithm name)

/-- `vodozemac::megolm::SessionOrdering`: the result of comparing two
inbound group sessions. -/
inductive SessionOrdering where
  | Equal
  | Better
  | Worse
  | Unconnected
deriving DecidableEq, Repr

/-- `HistoryVisibility`: an opaque room-visibility snapshot. -/
def HistoryVisibility := String

instance : DecidableEq HistoryVisibility := fun a b => String.decEq a b

/-- `vodozemac::megolm::DecryptionError`: ratchet-level decryption failure. -/
inductive DecryptionError where
  | UnknownMessageIndex
  | InvalidMAC
deriving DecidableEq, Repr

/-- `EventError`: event-reconstruction errors surfaced by `decrypt`. -/
inductive EventError where
  | UnsupportedAlgorithm
  | NotAnObject
  | MismatchedRoom (expected : String) (found : Option String)
deriving DecidableEq, Repr

/-- `MegolmError` (the error side of `MegolmResult`), restricted to the
variants reachable from `InboundGroupSession::decrypt`. -/
inductive MegolmError where
  | EventErr (e : EventError)
  | Decryption (e : DecryptionError)
deriving DecidableEq, Repr

/-- `SignatureError`, restricted to the variants used by the backup
signing code. -/
inductive SignatureError where
  | NotAnObject
  | NoSignatureFound
  | InvalidSignature
deriving DecidableEq, Repr

instance {e a : Type} [DecidableEq e] [DecidableEq a] :
    DecidableEq (Except e a) := fun x y =>
  match x, y with
  | .ok v, .ok w =>
    if h : v = w then .isTrue (by rw [h]) else .isFalse (by simp [h])
  | .error v, .error w =>
    if h : v = w then .isTrue (by rw [h]) else .isFalse (by simp [h])
  | .ok _, .error _ => .isFalse (by simp)
  | .error _, .ok _ => .isFalse (by simp)

/-- Modelled from the spec: the exportable key material produced by the
vodozemac ratchet's `export_at` ("raw exportable session key material").
It carries the fixed public signing key of the session (which determines
the session id), the ratchet key advanced to the export index, and that
index. -/
structure ExportedSessionKey where
  signingPubKey : List Nat
  ratchetKey : List Nat
  index : Nat
deriving DecidableEq, Repr

/-- Modelled from the spec: one step of the forward-secure ratchet
advance (an opaque, deterministic key-derivation step). -/
def ratchetStep (key : List Nat) : List Nat :=
  key.map (fun b => (2 * b + 1) % 256)

/-- Modelled from the spec: advancing the ratchet key by `n` message
indices. -/
def ratchetAdvance (n : Nat) (key : List Nat) : List Nat :=
  Nat.rec key (fun _ k => ratchetStep k) n

/-- Modelled from the spec: `vodozemac::megolm::InboundGroupSession`, the
opaque ratchet collaborator ("construct session from key material +
configuration; `session_id()`; `first_known_index()`; `export_at`;
`decrypt`; `compare`; serialize/deserialize").  The session id is derived
from the fixed public signing key; `counter` is the first known index. -/
structure InnerSession where
  signingPubKey : List Nat
  ratchetKey : List Nat
  counter : Nat
  config : SessionConfig
deriving DecidableEq, Repr

/-- Modelled from the spec: the ratchet collaborator's `session_id()`,
derived deterministically from the session's fixed public signing key,
independent of the ratchet advance. -/
def InnerSession.session_id (s : InnerSession) : String :=
  "megolm-session:" ++ toString s.signingPubKey

/-- Modelled from the spec: the ratchet collaborator's
`first_known_index()`. -/
def InnerSession.first_known_index (s : InnerSession) : Nat :=
  s.counter

/-- Modelled from the spec: the ratchet collaborator's
`export_at(index) → key material or failure`; fails when the index lies
before the first known index. -/
def InnerSession.export_at (s : InnerSession) (index : Nat) :
    Option ExportedSessionKey :=
  if index < s.counter then none
  else some ⟨s.signingPubKey, ratchetAdvance (index - s.counter) s.ratchetKey, index⟩

/-- Modelled from the spec: the ratchet collaborator's import of exported
key material under a session configuration
(`vodozemac::megolm::InboundGroupSession::import`). -/
def InnerSession.import (key : ExportedSessionKey) (config : SessionConfig) :
    InnerSession :=
  ⟨key.signingPubKey, key.ratchetKey, key.index, config⟩

/-- Modelled from the spec: the ratchet collaborator's `compare`, which
"orders by which session can decrypt a strictly larger range of history
(earlier `first_known_index` is better); equal depth is `Equal`" and is
`Unconnected` for unrelated ratchets. -/
def InnerSession.compare (a b : InnerSession) : SessionOrdering :=
  if a.signingPubKey ≠ b.signingPubKey then .Unconnected
  else if ratchetAdvance (max a.counter b.counter - a.counter) a.ratchetKey ≠
      ratchetAdvance (max a.counter b.counter - b.counter) b.ratchetKey then .Unconnected
  else if a.counter = b.counter then .Equal
  else if a.counter < b.counter then .Better
  else .Worse

/-- `serde_json::Value`: a JSON value.  The `float` constructor stands for
any number that is not an integer representable in canonical JSON (ruma's
`CanonicalJsonValue::try_from` rejects such numbers); objects are
association lists of fields in their existing order. -/
inductive Jv where
  | null
  | bool (b : Bool)
  | int (n : Int)
  | float
  | str (s : String)
  | arr (xs : List Jv)
  | obj (fields : List (String × Jv))

/-- `vodozemac::megolm::MegolmMessage`: an encrypted megolm ciphertext,
modelled by the data its successful decryption yields (a message index and
a JSON payload) plus the authentication tag binding it to a session. -/
structure MegolmMessage where
  messageIndex : Nat
  authTag : List Nat
  payload : Jv

mutual

/-- Attempted canonicalization check, modelling ruma's
`CanonicalJsonValue::try_from(serde_json::Value)`: it succeeds exactly
when the value contains no non-canonical number anywhere. -/
def Jv.canonicalizable : Jv → Bool
  | .null => true
  | .bool _ => true
  | .int _ => true
  | .float => false
  | .str _ => true
  | .arr xs => canonicalizableList xs
  | .obj fields => canonicalizableFields fields

/-- Canonicalizability of every element of a JSON array. -/
def canonicalizableList : List Jv → Bool
  | [] => true
  | x :: xs => x.canonicalizable && canonicalizableList xs

/-- Canonicalizability of every value of a JSON object. -/
def canonicalizableFields : List (String × Jv) → Bool
  | [] => true
  | (_, v) :: fields => v.canonicalizable && canonicalizableFields fields

end

mutual

/-- Serialization of a JSON value into a JSON string, modelling ruma's
`CanonicalJsonValue::to_string` (object fields are emitted exactly in the
order they appear in the association list; the canonical encoder keeps
objects sorted by key, see `insertSorted`).  String escaping is not
modelled: string contents are emitted verbatim between quotes. -/
def Jv.toJsonString : Jv → String
  | .null => "null"
  | .bool true => "true"
  | .bool false => "false"
  | .int n => toString n
  | .float => "float"
  | .str s => "\"" ++ s ++ "\""
  | .arr xs => "[" ++ jsonStringList xs ++ "]"
  | .obj fields => "\x7b" ++ jsonStringFields fields ++ "\x7d"

/-- Comma-separated serialization of the elements of a JSON array. -/
def jsonStringList : List Jv → String
  | [] => ""
  | [x] => x.toJsonString
  | x :: xs => x.toJsonString ++ "," ++ jsonStringList xs

/-- Comma-separated serialization of the fields of a JSON object, in
list order. -/
def jsonStringFields : List (String × Jv) → String
  | [] => ""
  | [(k, v)] => "\"" ++ k ++ "\":" ++ v.toJsonString
  | (k, v) :: fields => "\"" ++ k ++ "\":" ++ v.toJsonString ++ "," ++ jsonStringFields fields

end

/-- Modelled from ruma: the strict order on `String` keys used by the
`BTreeMap` (lexicographic by code point), on the underlying character
lists. -/
def charsLt : List Char → List Char → Bool
  | [], [] => false
  | [], _ :: _ => true
  | _ :: _, [] => false
  | a :: as, b :: bs =>
    if a.toNat < b.toNat then true
    else if b.toNat < a.toNat then false
    else charsLt as bs

/-- The key order of the canonical JSON object: lexicographic by code
point. -/
def keyLt (a b : String) : Bool := charsLt a.data b.data

/-- Modelled from ruma: `CanonicalJsonObject` is a `BTreeMap<String,
CanonicalJsonValue>`; inserting a key keeps the map sorted by key in
strictly increasing (lexicographic) order, replacing the value of an
already-present key. -/
def insertSorted (fields : List (String × Jv)) (k : String) (v : Jv) :
    List (String × Jv) :=
  match fields with
  | [] => [(k, v)]
  | (k', v') :: rest =>
    if keyLt k k' then (k, v) :: (k', v') :: rest
    else if k = k' then (k, v) :: rest
    else (k', v') :: insertSorted rest k v

/-- Modelled from the spec: base64 encoding of a byte sequence, abstracted
as the injective map sending each byte to the character with that code
point. -/
def base64_encode (bytes : List Nat) : String :=
  String.mk (bytes.map (fun b => Char.ofNat (b % 256)))

/-- Modelled from the spec: base64 decoding, the inverse of
`base64_encode` on its image (decode failure of genuinely malformed
base64 is not distinguished here; both a failed decode and a mismatched
decoded value lead to `InvalidSignature` in `verify`). -/
def base64_decode (s : String) : Option (List Nat) :=
  some (s.data.map Char.toNat)

/-- Modelled from the spec: the HMAC-SHA-256 keyed message-authentication
code over a message, abstracted as an executable deterministic keyed
digest producing a byte sequence. -/
def hmacSha256 (key : List Nat) (message : List Char) : List Nat :=
  let seed := key.foldl (fun a k => (a * 131 + k + 17) % 65521) 5381
  let h := message.foldl (fun a c => (a * 131 + c.toNat + 1) % 65521) seed
  [h % 256, (h / 256) % 256]

/-- `EncryptedSessionDataUnsigned` (patched ruma): the unsigned portion of
a backup envelope, carrying the optional backup MAC. -/
structure EncryptedSessionDataUnsigned where
  backup_mac : Option String
deriving DecidableEq

/-- `EncryptedSessionData` (patched ruma): the backup envelope.
`ephemeral`, `ciphertext` and `mac` are held as raw bytes (their base64
`encode()` is applied where the code applies it); `other` holds the
additional unrecognized fields in their existing order. -/
structure EncryptedSessionData where
  ephemeral : List Nat
  ciphertext : List Nat
  mac : List Nat
  unsigned : Option EncryptedSessionDataUnsigned
  other : List (String × Jv)

/-- An HMAC-SHA-256 key (`HmacSha256Key`, backup.rs line 45): a 32-byte
secret. -/
def HmacSha256Key := List Nat

/-- The canonical-JSON object built by `make_signable_json` (backup.rs
lines 61-70) before serialization: the `ephemeral`, `ciphertext` and
`mac` fields inserted into a fresh `CanonicalJsonObject`, then each
`other` field inserted in its existing order, failing with `NotAnObject`
if a value cannot be canonicalized. -/
def signableFields (value : EncryptedSessionData) :
    Except SignatureError (List (String × Jv)) :=
  let json_value := insertSorted (insertSorted (insertSorted []
    "ephemeral" (.str (base64_encode value.ephemeral)))
    "ciphertext" (.str (base64_encode value.ciphertext)))
    "mac" (.str (base64_encode value.mac))
  go json_value value.other
where
  /-- The `for (key, val) in value.other.iter()` insertion loop. -/
  go (acc : List (String × Jv)) : List (String × Jv) →
      Except SignatureError (List (String × Jv))
    | [] => .ok acc
    | (k, v) :: rest =>
      if v.canonicalizable then go (insertSorted acc k v) rest
      else .error .NotAnObject

/-- `HmacSha256Key::make_signable_json` (backup.rs lines 61-73): the
canonical JSON string of the envelope's core fields plus its extra
fields. -/
def make_signable_json (value : EncryptedSessionData) :
    Except SignatureError String :=
  (signableFields value).map (fun fields => (Jv.obj fields).toJsonString)

/-- `HmacSha256Key::calculate_hmac` (backup.rs lines 84-89). -/
def HmacSha256Key.calculate_hmac (key : HmacSha256Key) (message : List Char) :
    List Nat :=
  hmacSha256 key message

/-- `HmacSha256Key::sign` (backup.rs lines 76-82): computes the keyed MAC
over the canonical JSON and attaches it (base64-encoded) as the
`unsigned.backup_mac` field.  The Rust method mutates `value`; here the
updated envelope is returned. -/
def HmacSha256Key.sign (key : HmacSha256Key) (value : EncryptedSessionData) :
    Except SignatureError EncryptedSessionData :=
  match make_signable_json value with
  | .error e => .error e
  | .ok serialized =>
    let mac := base64_encode (key.calculate_hmac serialized.data)
    .ok { value with unsigned := some ⟨some mac⟩ }

/-- The envelope's unsigned backup MAC field, as read by `verify`:
`value.unsigned.as_ref().and_then(|unsigned| unsigned.backup_mac.as_ref())`. -/
def envBackupMac (value : EncryptedSessionData) : Option String :=
  value.unsigned.bind (fun unsigned => unsigned.backup_mac)

/-- `HmacSha256Key::verify` (backup.rs lines 92-104). -/
def HmacSha256Key.verify (key : HmacSha256Key) (value : EncryptedSessionData) :
    Except SignatureError Unit :=
  match make_signable_json value with
  | .error e => .error e
  | .ok serialized =>
    match envBackupMac value with
    | none => .error .NoSignatureFound
    | some mac =>
      match base64_decode mac with
      | none => .error .InvalidSignature
      | some mac =>
        if key.calculate_hmac serialized.data = mac then .ok ()
        else .error .InvalidSignature

/-- `SessionCreatorInfo` (inbound.rs lines 65-96): the Curve25519 identity
key of the session creator (as a base64 string) and the claimed public
signing keys. -/
structure SessionCreatorInfo where
  curve25519_key : String
  signing_keys : SigningKeys
deriving DecidableEq

/-- `InboundGroupSession` (inbound.rs lines 129-163).  `innerPtr` models
the identity of the `Arc<Mutex<InnerSession>>` allocation (two handles are
`Arc::ptr_eq` exactly when their `innerPtr`s coincide; cloning a session
keeps the pointer, constructing a fresh `Mutex` allocates a new one), and
`inner` the ratchet value stored there. -/
structure InboundGroupSession where
  innerPtr : Nat
  inner : InnerSession
  session_id : String
  first_known_index : Nat
  creator_info : SessionCreatorInfo
  room_id : String
  key_source : KeySource
  algorithm : EventEncryptionAlgorithm
  history_visibility : Option HistoryVisibility
  backed_up : Bool
deriving DecidableEq

/-- `ExportedRoomKey`: the interchange snapshot produced by `export`. -/
structure ExportedRoomKey where
  algorithm : EventEncryptionAlgorithm
  room_id : String
  sender_key : String
  session_id : String
  forwarding_curve25519_key_chain : List String
  sender_claimed_keys : SigningKeys
  session_key : ExportedSessionKey
deriving DecidableEq

/-- `BackedUpRoomKey`: the backup variant of the interchange snapshot,
carrying the `unauthenticated` provenance hint. -/
structure BackedUpRoomKey where
  algorithm : EventEncryptionAlgorithm
  sender_key : String
  sender_claimed_keys : SigningKeys
  session_key : ExportedSessionKey
  unauthenticated : Option UnauthenticatedSource
deriving DecidableEq

/-- Modelled from the spec: the `From<ExportedRoomKey>` conversion into
`BackedUpRoomKey` used by `to_backup` via `.into()` (defined in the group
sessions module, not among the provided sources); it copies the shared
fields, with no unauthenticated hint of its own. -/
def BackedUpRoomKey.ofExported (key : ExportedRoomKey) : BackedUpRoomKey :=
  { algorithm := key.algorithm
    sender_key := key.sender_key
    sender_claimed_keys := key.sender_claimed_keys
    session_key := key.session_key
    unauthenticated := none }

/-- `PickledInboundGroupSession` (inbound.rs lines 521-541): the persisted
record.  The pickle blob (`InboundGroupSessionPickle`) is the ratchet
collaborator's own serialization of the `InnerSession`, modelled by the
`InnerSession` value itself; note that the record stores neither a session
id nor a first known index. -/
structure PickledInboundGroupSession where
  pickle : InnerSession
  sender_key : String
  signing_key : SigningKeys
  room_id : String
  key_source : KeySource
  backed_up : Bool
  history_visibility : Option HistoryVisibility
  algorithm : EventEncryptionAlgorithm
deriving DecidableEq

/-- `PickledInboundGroupSessionIn` (inbound.rs lines 549-562): the
permissive wire shape used for deserialization, with both the legacy
`imported` flag and the current `key_source` optional. -/
structure PickledInboundGroupSessionIn where
  pickle : InnerSession
  sender_key : String
  signing_key : SigningKeys
  room_id : String
  imported : Option Bool
  key_source : Option KeySource
  backed_up : Bool
  history_visibility : Option HistoryVisibility
  algorithm : EventEncryptionAlgorithm
deriving DecidableEq

/-- `TryFrom<PickledInboundGroupSessionIn> for PickledInboundGroupSession`
(inbound.rs lines 568-590): the migration shim from the legacy `imported`
flag to the enumerated `key_source`. -/
def PickledInboundGroupSession.try_from (val : PickledInboundGroupSessionIn) :
    Except String PickledInboundGroupSession :=
  match (val.imported, val.key_source) with
  | (some false, none) => .ok
      { pickle := val.pickle, sender_key := val.sender_key,
        signing_key := val.signing_key, room_id := val.room_id,
        key_source := .Direct, backed_up := val.backed_up,
        history_visibility := val.history_visibility,
        algorithm := val.algorithm }
  | (some true, none) => .ok
      { pickle := val.pickle, sender_key := val.sender_key,
        signing_key := val.signing_key, room_id := val.room_id,
        key_source := .OldStyleImport, backed_up := val.backed_up,
        history_visibility := val.history_visibility,
        algorithm := val.algorithm }
  | (none, some key_source) => .ok
      { pickle := val.pickle, sender_key := val.sender_key,
        signing_key := val.signing_key, room_id := val.room_id,
        key_source := key_source, backed_up := val.backed_up,
        history_visibility := val.history_visibility,
        algorithm := val.algorithm }
  | (none, none) => .error "missing field: key_source"
  | (some _, some _) => .error "imported and key_source cannot both be provided"

/-- `InboundGroupSession::pickle` (inbound.rs lines 255-268). -/
def InboundGroupSession.pickle (s : InboundGroupSession) :
    PickledInboundGroupSession :=
  { pickle := s.inner
    sender_key := s.creator_info.curve25519_key
    signing_key := s.creator_info.signing_keys
    room_id := s.room_id
    key_source := s.key_source
    backed_up := s.backed_up
    history_visibility := s.history_visibility
    algorithm := s.algorithm }

/-- `InboundGroupSession::from_pickle` (inbound.rs lines 333-352).
`session_id` and `first_known_index` are recomputed from the restored
ratchet state.  The Rust signature is fallible but the body always
returns `Ok`; the fresh `Mutex` allocation is modelled by the `ptr`
argument. -/
def InboundGroupSession.from_pickle (ptr : Nat)
    (pickle : PickledInboundGroupSession) : InboundGroupSession :=
  let session := pickle.pickle
  { innerPtr := ptr
    inner := session
    session_id := session.session_id
    first_known_index := session.first_known_index
    creator_info := ⟨pickle.sender_key, pickle.signing_key⟩
    room_id := pickle.room_id
    key_source := pickle.key_source
    backed_up := pickle.backed_up
    history_visibility := pickle.history_visibility
    algorithm := pickle.algorithm }

/-- `TryFrom<&ExportedRoomKey> for InboundGroupSession` (inbound.rs lines
592-615): `first_known_index` is recomputed from the imported ratchet,
while `session_id` is taken from the exported record. -/
def InboundGroupSession.try_from_exported (ptr : Nat) (key : ExportedRoomKey) :
    Except SessionCreationError InboundGroupSession :=
  match session_config key.algorithm with
  | .error e => .error e
  | .ok config =>
    let session := InnerSession.import key.session_key config
    .ok
      { innerPtr := ptr
        inner := session
        session_id := key.session_id
        first_known_index := session.first_known_index
        creator_info := ⟨key.sender_key, key.sender_claimed_keys⟩
        room_id := key.room_id
        key_source := .OldStyleImport
        algorithm := key.algorithm
        history_visibility := none
        backed_up := false }

/-- `InboundGroupSession::sender_key` (inbound.rs lines 279-281). -/
def InboundGroupSession.sender_key (s : InboundGroupSession) : String :=
  s.creator_info.curve25519_key

/-- `InboundGroupSession::signing_keys` (inbound.rs lines 300-302). -/
def InboundGroupSession.signing_keys (s : InboundGroupSession) : SigningKeys :=
  s.creator_info.signing_keys

/-- `InboundGroupSession::has_been_imported` (inbound.rs lines 377-382). -/
def InboundGroupSession.has_been_imported (s : InboundGroupSession) : Bool :=
  match s.key_source with
  | .Direct => false
  | _ => true

/-- `InboundGroupSession::export_at_index` (inbound.rs lines 305-320): the
requested index is clamped up to the first known index; the ratchet's
`export_at` cannot fail for the clamped index (the Rust code unwraps it
with `expect`), so a default stands in for the impossible `none`. -/
def InboundGroupSession.export_at_index (s : InboundGroupSession)
    (message_index : Nat) : ExportedRoomKey :=
  let message_index := max s.first_known_index message_index
  let session_key := (s.inner.export_at message_index).getD ⟨[], [], 0⟩
  { algorithm := s.algorithm
    room_id := s.room_id
    sender_key := s.creator_info.curve25519_key
    session_id := s.session_id
    forwarding_curve25519_key_chain := []
    sender_claimed_keys := s.creator_info.signing_keys
    session_key := session_key }

/-- `InboundGroupSession::export` (inbound.rs lines 274-276). -/
def InboundGroupSession.export (s : InboundGroupSession) : ExportedRoomKey :=
  s.export_at_index s.first_known_index

/-- `InboundGroupSession::to_backup` (inbound.rs lines 425-434). -/
def InboundGroupSession.to_backup (s : InboundGroupSession) : BackedUpRoomKey :=
  let result := BackedUpRoomKey.ofExported s.export
  { result with
    unauthenticated :=
      match s.key_source with
      | .Direct => none
      | .Backup src => src
      | .Forward => some .Forwarded
      | .OldStyleImport => some .Undefined }

/-- `InboundGroupSession::compare` (inbound.rs lines 391-406): `Arc::ptr_eq`
on the inner cells first, then the unconnected-context check, then the
ratchet collaborator's own comparison. -/
def InboundGroupSession.compare (s other : InboundGroupSession) :
    SessionOrdering :=
  if s.innerPtr = other.innerPtr then .Equal
  else if s.sender_key ≠ other.sender_key
      ∨ s.signing_keys ≠ other.signing_keys
      ∨ s.algorithm ≠ other.algorithm
      ∨ s.room_id ≠ other.room_id then .Unconnected
  else s.inner.compare other.inner

/-- `PartialEq for InboundGroupSession` (inbound.rs lines 508-512):
equality is equality of the session id strings, nothing else. -/
def InboundGroupSession.eq (s other : InboundGroupSession) : Bool :=
  s.session_id == other.session_id

/-- `vodozemac::megolm::DecryptedMessage`: plaintext (already parsed as a
JSON value, see `InnerSession.decrypt`) plus the ratchet message index
actually used. -/
structure DecryptedMessage where
  plaintext : Jv
  message_index : Nat

/-- Modelled from the spec: the ratchet collaborator's
`decrypt(ciphertext) → (plaintext bytes, message index) or failure`:
fails when the message index lies before the first known index or when
the ciphertext's authentication does not bind it to this session.  The
plaintext-bytes-to-JSON parse (`serde_json::from_str`) is folded into the
model: a successfully decrypted payload is already a JSON value. -/
def InnerSession.decrypt (s : InnerSession) (message : MegolmMessage) :
    Except DecryptionError DecryptedMessage :=
  if message.messageIndex < s.counter then .error .UnknownMessageIndex
  else if message.authTag = s.signingPubKey then
    .ok ⟨message.payload, message.messageIndex⟩
  else .error .InvalidMAC

/-- `RoomEventEncryptionScheme`: the declared encryption scheme of an
encrypted room event (the v2 scheme is feature-gated off). -/
inductive RoomEventEncryptionScheme where
  | MegolmV1AesSha2 (ciphertext : MegolmMessage)
  | Unknown (algorithm : String)

/-- `EncryptedEvent` (event model collaborator): the wire shape of an
encrypted room event — ciphertext + scheme, sender, event id, timestamp,
unsigned block, optional relation (the content fields are flattened into
the event). -/
structure EncryptedEvent where
  scheme : RoomEventEncryptionScheme
  sender : String
  event_id : String
  origin_server_ts : Int
  unsigned : Jv
  relates_to : Option Jv

/-- `serde_json::Map::insert`: replace the value of an existing key or
append the new field. -/
def jinsert (fields : List (String × Jv)) (k : String) (v : Jv) :
    List (String × Jv) :=
  match fields with
  | [] => [(k, v)]
  | (k', v') :: rest =>
    if k = k' then (k, v) :: rest else (k', v') :: jinsert rest k v

/-- `serde_json::Map::get`: look a key up. -/
def jget (fields : List (String × Jv)) (k : String) : Option Jv :=
  match fields with
  | [] => none
  | (k', v) :: rest => if k = k' then some v else jget rest k

/-- Modelled from ruma: `RoomId::parse`, which accepts exactly the strings
with the `!` sigil and a `:server` part. -/
def RoomId.parse (s : String) : Option String :=
  match s.data with
  | [] => none
  | c :: rest => if c = '!' && rest.contains ':' then some s else none

/-- The caller-trusted metadata splice of `decrypt` (inbound.rs lines
463-467): insert `sender`, `event_id` and `origin_server_ts` into the
decrypted object. -/
def spliceMeta (fields : List (String × Jv)) (event : EncryptedEvent) :
    List (String × Jv) :=
  jinsert (jinsert (jinsert fields
    "sender" (.str event.sender))
    "event_id" (.str event.event_id))
    "origin_server_ts" (.int event.origin_server_ts)

/-- The room id extraction of `decrypt` (inbound.rs lines 469-471):
`decrypted_object.get("room_id").and_then(as_str).and_then(RoomId::parse)`. -/
def payloadRoomId (fields : List (String × Jv)) : Option String :=
  (jget fields "room_id").bind (fun v =>
    match v with
    | .str r => RoomId.parse r
    | _ => none)

/-- The relation merge of `decrypt` (inbound.rs lines 484-492): if the
decrypted `content` object lacks an `m.relates_to` key and the outer
event carried a relation, copy it in. -/
def mergeRelation (fields : List (String × Jv)) (relation : Option Jv) :
    List (String × Jv) :=
  match jget fields "content" with
  | some (.obj content) =>
    if (jget content "m.relates_to").isNone then
      match relation with
      | some rel => jinsert fields "content" (.obj (jinsert content "m.relates_to" rel))
      | none => fields
    else fields
  | _ => fields

/-- `InboundGroupSession::decrypt` (inbound.rs lines 441-498).  The final
`serde_json::from_value::<Raw<AnyTimelineEvent>>` re-typing is modelled as
returning the reconstructed JSON object itself. -/
def InboundGroupSession.decrypt (s : InboundGroupSession)
    (event : EncryptedEvent) : Except MegolmError (Jv × Nat) :=
  match event.scheme with
  | .Unknown _ => .error (.EventErr .UnsupportedAlgorithm)
  | .MegolmV1AesSha2 c =>
    match s.inner.decrypt c with
    | .error e => .error (.Decryption e)
    | .ok decrypted =>
      match decrypted.plaintext with
      | .obj fields =>
        let decrypted_object := spliceMeta fields event
        let room_id := payloadRoomId decrypted_object
        if room_id ≠ some s.room_id then
          .error (.EventErr (.MismatchedRoom s.room_id room_id))
        else
          let decrypted_object := jinsert decrypted_object "unsigned" event.unsigned
          let decrypted_object := mergeRelation decrypted_object event.relates_to
          .ok (.obj decrypted_object, decrypted.message_index)
      | _ => .error (.EventErr .NotAnObject)

/-- Modelled from the spec: the asymmetric encryption primitive's output —
"asymmetric encrypt(public key, bytes) → (ephemeral key, ciphertext,
tag)". -/
structure PkMessage where
  ephemeral_key : List Nat
  ciphertext : List Nat
  mac : Option (List Nat)

/-- Modelled from the spec: `PkEncryption::encrypt` (the compat module is
not among the provided sources), abstracted as an executable deterministic
function of the public key and the plaintext bytes. -/
def PkEncryption.encrypt (key : String) (message : List Nat) : PkMessage :=
  { ephemeral_key := key.data.map (fun c => (c.toNat + 3) % 256)
    ciphertext := message.map (fun b => (b + 7) % 256)
    mac := some [170, 85] }

/-- Modelled from the spec: `serde_json::to_vec` of a `BackedUpRoomKey`,
abstracted as an opaque byte serialization of its secret key material. -/
def encodeBackedUpRoomKey (key : BackedUpRoomKey) : List Nat :=
  key.session_key.signingPubKey ++ key.session_key.ratchetKey ++
    [key.session_key.index % 256]

/-- `KeyBackupData` (ruma): the final backup record assembled by
`MegolmV1BackupKey::encrypt`. -/
structure KeyBackupData where
  first_message_index : Nat
  forwarded_count : Nat
  is_verified : Bool
  session_data : EncryptedSessionData

/-- `MegolmV1BackupKey` (backup.rs lines 108-119): the public part of a
backup key — asymmetric public key, optional symmetric signing key, and
the mutable backup version (the accumulated signatures play no role in
the modelled operations). -/
structure MegolmV1BackupKey where
  key : String
  mac_key : Option HmacSha256Key
  version : Option String

/-- `MegolmV1BackupKey::encrypt` (backup.rs lines 188-227).  The Rust code
unwraps the `sign` result (which cannot fail: the freshly-built envelope
has no extra fields); the unreachable error branch keeps the unsigned
envelope. -/
def MegolmV1BackupKey.encrypt (bk : MegolmV1BackupKey)
    (session : InboundGroupSession) : KeyBackupData :=
  let forwarded_count : Nat := if session.has_been_imported then 1 else 0
  let first_message_index := session.first_known_index
  let key := session.to_backup
  let message := PkEncryption.encrypt bk.key (encodeBackedUpRoomKey key)
  let session_data : EncryptedSessionData :=
    { ephemeral := message.ephemeral_key
      ciphertext := message.ciphertext
      mac := message.mac.getD []
      unsigned := none
      other := [] }
  let session_data :=
    match bk.mac_key with
    | some mac_key =>
      match mac_key.sign session_data with
      | .ok signed => signed
      | .error _ => session_data
    | none => session_data
  { first_message_index := first_message_index
    forwarded_count := forwarded_count
    is_verified := false
    session_data := session_data }

/-! Concrete sample values used by witnesses and counterexamples. -/

/-- A sample ratchet state at index 0. -/
def sampleInner : InnerSession := ⟨[1, 2], [3, 4], 0, .V1⟩

/-- A sample session creator. -/
def sampleCreator : SessionCreatorInfo := ⟨"curveA", [("ed25519", "edA")]⟩

/-- A sample directly-received session, with identity fields consistent
with its ratchet state. -/
def sampleSession : InboundGroupSession :=
  { innerPtr := 0
    inner := sampleInner
    session_id := sampleInner.session_id
    first_known_index := sampleInner.first_known_index
    creator_info := sampleCreator
    room_id := "!room:example.org"
    key_source := .Direct
    algorithm := .MegolmV1AesSha2
    history_visibility := none
    backed_up := false }

/-- A clone of `sampleSession` sharing the same inner `Arc` (same
`innerPtr`) whose public `room_id` field was then reassigned — the Rust
`InboundGroupSession` derives `Clone` and exposes `pub room_id`, so this
pair of values is constructible through the crate's API. -/
def sampleSharedClone : InboundGroupSession :=
  { sampleSession with room_id := "!other:example.org" }

/-- A session distinct from `sampleSession` (fresh inner cell) in a
different room. -/
def sampleOtherRoom : InboundGroupSession :=
  { sampleSession with innerPtr := 1, room_id := "!other:example.org" }

/-- A sample session whose ratchet starts at index 3. -/
def sampleLaterSession : InboundGroupSession :=
  { sampleSession with
    inner := ⟨[1, 2], [3, 4], 3, .V1⟩
    first_known_index := 3 }

/-- A sample legacy persisted record carrying `imported = true` and no
`key_source`. -/
def sampleLegacyIn : PickledInboundGroupSessionIn :=
  { pickle := sampleInner
    sender_key := "curveA"
    signing_key := [("ed25519", "edA")]
    room_id := "!room:example.org"
    imported := some true
    key_source := none
    backed_up := false
    history_visibility := none
    algorithm := .MegolmV1AesSha2 }

/-- An exported room key whose stored `session_id` is NOT the one
derivable from its session key material. -/
def bogusExportedKey : ExportedRoomKey :=
  { algorithm := .MegolmV1AesSha2
    room_id := "!room:example.org"
    sender_key := "curveA"
    session_id := "bogus-session-id"
    forwarding_curve25519_key_chain := []
    sender_claimed_keys := [("ed25519", "edA")]
    session_key := ⟨[1, 2], [3, 4], 0⟩ }

/-- The JSON payload of a sample encrypted event belonging to a
different room than `sampleSession`'s. -/
def mismatchPayload : Jv :=
  .obj [("room_id", .str "!other:example.org"),
        ("type", .str "m.room.message"),
        ("content", .obj [])]

/-- A megolm ciphertext that authenticates against `sampleSession`'s
ratchet and decrypts to `mismatchPayload` at index 0. -/
def mismatchMessage : MegolmMessage := ⟨0, [1, 2], mismatchPayload⟩

/-- An encrypted event carrying `mismatchMessage`. -/
def mismatchEvent : EncryptedEvent :=
  { scheme := .MegolmV1AesSha2 mismatchMessage
    sender := "@alice:example.org"
    event_id := "$event1"
    origin_server_ts := 1000
    unsigned := .obj []
    relates_to := none }

/-- The byte string the spec's words describe for the MAC input: the
envelope object serialized with its fields in the order `ephemeral`,
`ciphertext`, `mac`, followed by the extra fields in their existing
order (compared against the source's `make_signable_json`). -/
def specOrderSignableJson (value : EncryptedSessionData) : Option String :=
  if canonicalizableFields value.other then
    some ((Jv.obj ([("ephemeral", .str (base64_encode value.ephemeral)),
      ("ciphertext", .str (base64_encode value.ciphertext)),
      ("mac", .str (base64_encode value.mac))] ++ value.other)).toJsonString)
  else none

/-- A sample envelope with byte fields that base64-encode to `E`, `C`
and `M`, and no extra fields. -/
def sampleEnvelope : EncryptedSessionData := ⟨[69], [67], [77], none, []⟩

/-- The envelope carries an unsigned backup MAC whose decoded value is
the keyed MAC of the envelope's canonical JSON. -/
def macMatches (key : HmacSha256Key) (v : EncryptedSessionData) : Prop :=
  ∃ serialized mac, make_signable_json v = .ok serialized ∧
    envBackupMac v = some mac ∧
    base64_decode mac = some (key.calculate_hmac serialized.data)

/-- An envelope with a non-canonicalizable extra field and no MAC. -/
def sampleFloatEnvelope : EncryptedSessionData :=
  ⟨[], [], [], none, [("x", .float)]⟩

/-! Theorems settling the claims. -/

/-- C1 counterexample: constructing a session from an `ExportedRoomKey`
whose stored `session_id` disagrees with the id derivable from its key
material yields a session whose `session_id` is the stored string, not
the one recomputed from the reconstructed ratchet state — the id is taken
verbatim from the record. -/
theorem restored_identity_counterexample :
    (InboundGroupSession.try_from_exported 0 bogusExportedKey).map
      (fun r => r.session_id) = .ok "bogus-session-id" ∧
    (InboundGroupSession.try_from_exported 0 bogusExportedKey).map
      (fun r => r.inner.session_id) = .ok "megolm-session:[1, 2]" ∧
    ("bogus-session-id" : String) ≠ "megolm-session:[1, 2]" :=
  ⟨rfl, rfl, by decide⟩

/-- C1 amended: `from_pickle` recomputes both `session_id` and
`first_known_index` from the restored ratchet state for every persisted
record (the record stores neither); consequently `pickle()` followed by
`from_pickle` preserves both for any session whose identity fields agree
with its ratchet.  Construction from an `ExportedRoomKey` recomputes
`first_known_index` from the reconstructed ratchet but copies
`session_id` verbatim from the record. -/
theorem restored_identity_recomputed :
    (∀ (ptr : Nat) (p : PickledInboundGroupSession),
      (InboundGroupSession.from_pickle ptr p).session_id =
        p.pickle.session_id ∧
      (InboundGroupSession.from_pickle ptr p).first_known_index =
        p.pickle.first_known_index) ∧
    (∀ (s : InboundGroupSession) (ptr : Nat),
      s.session_id = s.inner.session_id →
      s.first_known_index = s.inner.first_known_index →
      (InboundGroupSession.from_pickle ptr s.pickle).session_id =
        s.session_id ∧
      (InboundGroupSession.from_pickle ptr s.pickle).first_known_index =
        s.first_known_index) ∧
    (∀ (ptr : Nat) (k : ExportedRoomKey) (r : InboundGroupSession),
      InboundGroupSession.try_from_exported ptr k = .ok r →
      r.first_known_index = r.inner.first_known_index ∧
      r.session_id = k.session_id) := by
  refine ⟨fun ptr p => ⟨rfl, rfl⟩, ?_, ?_⟩
  · intro s ptr h1 h2
    exact ⟨h1.symm ▸ rfl, h2.symm ▸ rfl⟩
  · intro ptr k r h
    unfold InboundGroupSession.try_from_exported at h
    cases hc : session_config k.algorithm with
    | error e => rw [hc] at h; cases h
    | ok config =>
      rw [hc] at h
      cases h
      exact ⟨rfl, rfl⟩

/-- C1 witness: a pickle round trip of the sample session preserves its
session id and first known index. -/
theorem restored_identity_recomputed_witness :
    (InboundGroupSession.from_pickle 7 sampleSession.pickle).session_id =
      sampleSession.session_id ∧
    (InboundGroupSession.from_pickle 7 sampleSession.pickle).first_known_index =
      sampleSession.first_known_index :=
  restored_identity_recomputed.2.1 sampleSession 7 rfl rfl

/-- C6: whenever the ciphertext of an event decrypts successfully to a
JSON object, `decrypt` succeeds only if the room id embedded in the
decrypted payload equals the session's own room id, and fails with
`MismatchedRoom(expected, found)` when it does not — including when the
payload carries no parseable room id (`found = none`). -/
theorem decrypt_room_binding (s : InboundGroupSession)
    (event : EncryptedEvent) (c : MegolmMessage) (d : DecryptedMessage)
    (fields : List (String × Jv))
    (hscheme : event.scheme = .MegolmV1AesSha2 c)
    (hdec : s.inner.decrypt c = .ok d)
    (hobj : d.plaintext = .obj fields) :
    (payloadRoomId (spliceMeta fields event) ≠ some s.room_id →
      s.decrypt event = .error (.EventErr (.MismatchedRoom s.room_id
        (payloadRoomId (spliceMeta fields event))))) ∧
    (∀ r idx, s.decrypt event = .ok (r, idx) →
      payloadRoomId (spliceMeta fields event) = some s.room_id) := by
  unfold InboundGroupSession.decrypt
  rw [hscheme]
  simp only [hdec, hobj]
  constructor
  · intro hne
    rw [if_pos hne]
  · intro r idx h
    by_cases hne : payloadRoomId (spliceMeta fields event) ≠ some s.room_id
    · rw [if_pos hne] at h
      cases h
    · exact not_not.mp hne

/-- C6 witness: decrypting an authenticated event whose payload declares
a different room fails with `MismatchedRoom`. -/
theorem decrypt_room_binding_witness :
    sampleSession.decrypt mismatchEvent =
      .error (.EventErr (.MismatchedRoom "!room:example.org"
        (some "!other:example.org"))) :=
  (decrypt_room_binding sampleSession mismatchEvent mismatchMessage
    ⟨mismatchPayload, 0⟩
    [("room_id", .str "!other:example.org"),
     ("type", .str "m.room.message"),
     ("content", .obj [])]
    rfl rfl rfl).1 (by decide)

/-- C3: deserialization of a persisted pickle record maps a lone
`imported=false` to `Direct` and a lone `imported=true` to
`OldStyleImport`, uses a lone `key_source` as given, and fails with a
structured error when both fields or neither are present. -/
theorem pickled_migration (v : PickledInboundGroupSessionIn) :
    (v.imported = some false → v.key_source = none →
      (PickledInboundGroupSession.try_from v).map (fun p => p.key_source) =
        .ok .Direct) ∧
    (v.imported = some true → v.key_source = none →
      (PickledInboundGroupSession.try_from v).map (fun p => p.key_source) =
        .ok .OldStyleImport) ∧
    (∀ ks, v.imported = none → v.key_source = some ks →
      (PickledInboundGroupSession.try_from v).map (fun p => p.key_source) =
        .ok ks) ∧
    (v.imported = none → v.key_source = none →
      PickledInboundGroupSession.try_from v = .error "missing field: key_source") ∧
    (∀ b ks, v.imported = some b → v.key_source = some ks →
      PickledInboundGroupSession.try_from v =
        .error "imported and key_source cannot both be provided") := by
  refine ⟨?_, ?_, ?_, ?_, ?_⟩
  · intro h1 h2
    simp [PickledInboundGroupSession.try_from, h1, h2, Except.map]
  · intro h1 h2
    simp [PickledInboundGroupSession.try_from, h1, h2, Except.map]
  · intro ks h1 h2
    simp [PickledInboundGroupSession.try_from, h1, h2, Except.map]
  · intro h1 h2
    simp [PickledInboundGroupSession.try_from, h1, h2]
  · intro b ks h1 h2
    simp [PickledInboundGroupSession.try_from, h1, h2]

/-- C3 witness: the legacy record with only `imported=true` restores with
key source `OldStyleImport`. -/
theorem pickled_migration_witness :
    (PickledInboundGroupSession.try_from sampleLegacyIn).map
      (fun p => p.key_source) = .ok .OldStyleImport :=
  (pickled_migration sampleLegacyIn).2.1 rfl rfl

/-- C4 counterexample: a clone sharing the same inner `Arc` whose room id
was reassigned differs from the original in room id, yet `compare`
returns `Equal` (the `Arc::ptr_eq` short-circuit fires before the
unconnected-context check), not `Unconnected`. -/
theorem compare_unconnected_counterexample :
    sampleSession.room_id ≠ sampleSharedClone.room_id ∧
    sampleSession.compare sampleSharedClone = .Equal ∧
    SessionOrdering.Equal ≠ SessionOrdering.Unconnected := by
  refine ⟨by decide, by decide, by decide⟩

/-- C4 amended: for two sessions that do not share the same underlying
ratchet cell, a difference in creator identity key, claimed signing keys,
algorithm, or room id makes `compare` return `Unconnected`, regardless of
ratchet content. -/
theorem compare_unconnected (s other : InboundGroupSession)
    (hptr : s.innerPtr ≠ other.innerPtr)
    (hdiff : s.sender_key ≠ other.sender_key
      ∨ s.signing_keys ≠ other.signing_keys
      ∨ s.algorithm ≠ other.algorithm
      ∨ s.room_id ≠ other.room_id) :
    s.compare other = .Unconnected := by
  unfold InboundGroupSession.compare
  rw [if_neg hptr, if_pos hdiff]

/-- C4 witness: two sessions with distinct inner cells and different room
ids compare as `Unconnected`. -/
theorem compare_unconnected_witness :
    sampleSession.compare sampleOtherRoom = .Unconnected :=
  compare_unconnected sampleSession sampleOtherRoom (by decide)
    (Or.inr (Or.inr (Or.inr (by decide))))

/-- C7: `export_at_index n` for `n` below the session's first known index
behaves identically to `export_at_index first_known_index`. -/
theorem export_at_index_clamps (s : InboundGroupSession) (n : Nat)
    (h : n < s.first_known_index) :
    s.export_at_index n = s.export_at_index s.first_known_index := by
  unfold InboundGroupSession.export_at_index
  rw [Nat.max_eq_left (Nat.le_of_lt h), Nat.max_self]

/-- C7 witness: exporting the index-3 session at index 1 equals exporting
it at index 3. -/
theorem export_at_index_clamps_witness :
    sampleLaterSession.export_at_index 1 =
      sampleLaterSession.export_at_index 3 :=
  export_at_index_clamps sampleLaterSession 1 (by decide)

/-- C8: `to_backup` maps the session's key source to the backup record's
unauthenticated hint: `Direct ↦ none`, `Backup x ↦ x`, `Forward ↦
Forwarded`, `OldStyleImport ↦ Undefined`. -/
theorem to_backup_unauthenticated (s : InboundGroupSession) :
    (s.key_source = .Direct → (s.to_backup).unauthenticated = none) ∧
    (∀ x, s.key_source = .Backup x → (s.to_backup).unauthenticated = x) ∧
    (s.key_source = .Forward →
      (s.to_backup).unauthenticated = some .Forwarded) ∧
    (s.key_source = .OldStyleImport →
      (s.to_backup).unauthenticated = some .Undefined) := by
  refine ⟨?_, ?_, ?_, ?_⟩ <;>
    first
      | (intro h; simp [InboundGroupSession.to_backup, h])
      | (intro x h; simp [InboundGroupSession.to_backup, h])

/-- C8 witness: the directly-received sample session backs up with no
unauthenticated hint. -/
theorem to_backup_unauthenticated_witness :
    (sampleSession.to_backup).unauthenticated = none :=
  (to_backup_unauthenticated sampleSession).1 rfl

/-- C9: the backup record produced by `encrypt` has `forwarded_count` 1
exactly when the session has been imported (true for every key source
except `Direct`), `first_message_index` equal to the session's first
known index, and an always-false verification flag. -/
theorem backup_encrypt_metadata (bk : MegolmV1BackupKey)
    (s : InboundGroupSession) :
    (bk.encrypt s).forwarded_count =
      (if s.has_been_imported then 1 else 0) ∧
    (bk.encrypt s).first_message_index = s.first_known_index ∧
    (bk.encrypt s).is_verified = false ∧
    (s.has_been_imported = true ↔ s.key_source ≠ .Direct) := by
  refine ⟨rfl, rfl, rfl, ?_⟩
  cases h : s.key_source <;>
    simp [InboundGroupSession.has_been_imported, h]

/-- C10: `PartialEq` on inbound group sessions is exactly equality of the
session id strings; no other field participates. -/
theorem partial_eq_is_session_id (a b : InboundGroupSession) :
    a.eq b = true ↔ a.session_id = b.session_id := by
  simp [InboundGroupSession.eq]

/-- `charsLt` is transitive. -/
theorem charsLt_trans (a : List Char) : ∀ (b c : List Char),
    charsLt a b = true → charsLt b c = true → charsLt a c = true := by
  induction a with
  | nil =>
    intro b c h1 h2
    cases b with
    | nil => simp [charsLt] at h1
    | cons bh bt =>
      cases c with
      | nil => simp [charsLt] at h2
      | cons ch ct => rfl
  | cons ah tl ih =>
    intro b c h1 h2
    cases b with
    | nil => simp [charsLt] at h1
    | cons bh bt =>
      cases c with
      | nil => simp [charsLt] at h2
      | cons ch ct =>
        rw [charsLt] at h1 h2 ⊢
        by_cases hab : ah.toNat < bh.toNat
        · by_cases hbc : bh.toNat < ch.toNat
          · rw [if_pos (Nat.lt_trans hab hbc)]
          · by_cases hcb : ch.toNat < bh.toNat
            · rw [if_neg hbc, if_pos hcb] at h2
              simp at h2
            · have hac : ah.toNat < ch.toNat := by omega
              rw [if_pos hac]
        · by_cases hba : bh.toNat < ah.toNat
          · rw [if_neg hab, if_pos hba] at h1
            simp at h1
          · rw [if_neg hab, if_neg hba] at h1
            by_cases hbc : bh.toNat < ch.toNat
            · have hac : ah.toNat < ch.toNat := by omega
              rw [if_pos hac]
            · by_cases hcb : ch.toNat < bh.toNat
              · rw [if_neg hbc, if_pos hcb] at h2
                simp at h2
              · rw [if_neg hbc, if_neg hcb] at h2
                have hac1 : ¬ ah.toNat < ch.toNat := by omega
                have hac2 : ¬ ch.toNat < ah.toNat := by omega
                rw [if_neg hac1, if_neg hac2]
                exact ih bt ct h1 h2

/-- `charsLt` is total on distinct lists. -/
theorem charsLt_total (a : List Char) : ∀ (b : List Char), a ≠ b →
    charsLt a b = true ∨ charsLt b a = true := by
  induction a with
  | nil =>
    intro b hne
    cases b with
    | nil => exact absurd rfl hne
    | cons bh bt => exact Or.inl rfl
  | cons ah tl ih =>
    intro b hne
    cases b with
    | nil => exact Or.inr rfl
    | cons bh bt =>
      by_cases hab : ah.toNat < bh.toNat
      · exact Or.inl (by rw [charsLt, if_pos hab])
      · by_cases hba : bh.toNat < ah.toNat
        · exact Or.inr (by rw [charsLt, if_pos hba])
        · have heq : ah = bh := by
            have hn : ah.toNat = bh.toNat := by omega
            exact Char.eq_of_val_eq (UInt32.ext hn)
          have htl : tl ≠ bt := by
            intro h
            exact hne (by rw [heq, h])
          rcases ih bt htl with h | h
          · exact Or.inl (by rw [charsLt, if_neg hab, if_neg hba]; exact h)
          · exact Or.inr (by rw [charsLt, if_neg hba, if_neg hab]; exact h)

/-- `keyLt` is transitive. -/
theorem keyLt_trans (a b c : String) (h1 : keyLt a b = true)
    (h2 : keyLt b c = true) : keyLt a c = true :=
  charsLt_trans a.data b.data c.data h1 h2

/-- Two distinct strings are `keyLt`-comparable. -/
theorem keyLt_total (a b : String) (hne : a ≠ b) :
    keyLt a b = true ∨ keyLt b a = true := by
  refine charsLt_total a.data b.data ?_
  intro h
  apply hne
  cases a
  cases b
  simp at h
  rw [h]

/-- Membership in an `insertSorted` result: an element is the inserted
pair or was already present. -/
theorem mem_insertSorted (fs : List (String × Jv)) (k : String) (v : Jv)
    (x : String × Jv) (hx : x ∈ insertSorted fs k v) :
    x = (k, v) ∨ x ∈ fs := by
  induction fs with
  | nil =>
    simp [insertSorted] at hx
    exact Or.inl hx
  | cons hd tl ih =>
    rw [insertSorted] at hx
    by_cases h1 : keyLt k hd.1
    · rw [if_pos h1] at hx
      rcases List.mem_cons.mp hx with h | h
      · exact Or.inl h
      · exact Or.inr h
    · rw [if_neg h1] at hx
      by_cases h2 : k = hd.1
      · rw [if_pos h2] at hx
        rcases List.mem_cons.mp hx with h | h
        · exact Or.inl h
        · exact Or.inr (List.mem_cons_of_mem hd h)
      · rw [if_neg h2] at hx
        rcases List.mem_cons.mp hx with h | h
        · exact Or.inr (h ▸ List.mem_cons_self hd tl)
        · rcases ih h with h3 | h3
          · exact Or.inl h3
          · exact Or.inr (List.mem_cons_of_mem hd h3)

/-- `insertSorted` preserves strictly-increasing key order. -/
theorem insertSorted_pairwise (fs : List (String × Jv)) (k : String)
    (v : Jv) (h : fs.Pairwise (fun a b => keyLt a.1 b.1 = true)) :
    (insertSorted fs k v).Pairwise (fun a b => keyLt a.1 b.1 = true) := by
  induction fs with
  | nil => simp [insertSorted]
  | cons hd tl ih =>
    rcases List.pairwise_cons.mp h with ⟨hhd, htl⟩
    rw [insertSorted]
    by_cases h1 : keyLt k hd.1
    · rw [if_pos h1]
      refine List.pairwise_cons.mpr ⟨?_, h⟩
      intro x hx
      rcases List.mem_cons.mp hx with h3 | h3
      · exact h3 ▸ h1
      · exact keyLt_trans k hd.1 x.1 h1 (hhd x h3)
    · rw [if_neg h1]
      by_cases h2 : k = hd.1
      · rw [if_pos h2]
        refine List.pairwise_cons.mpr ⟨?_, htl⟩
        intro x hx
        exact h2 ▸ hhd x hx
      · rw [if_neg h2]
        refine List.pairwise_cons.mpr ⟨?_, ih htl⟩
        intro x hx
        rcases mem_insertSorted tl k v x hx with h3 | h3
        · refine h3 ▸ ?_
          rcases keyLt_total k hd.1 h2 with h4 | h4
          · exact absurd h4 h1
          · exact h4
        · exact hhd x h3

/-- The extra-field insertion loop of `signableFields` preserves
strictly-increasing key order of the accumulator. -/
theorem signableFields_go_pairwise (others : List (String × Jv)) :
    ∀ (acc fields : List (String × Jv)),
    acc.Pairwise (fun a b => keyLt a.1 b.1 = true) →
    signableFields.go acc others = .ok fields →
    fields.Pairwise (fun a b => keyLt a.1 b.1 = true) := by
  induction others with
  | nil =>
    intro acc fields hacc h
    cases h
    exact hacc
  | cons hd tl ih =>
    intro acc fields hacc h
    obtain ⟨k, v⟩ := hd
    rw [signableFields.go] at h
    by_cases hc : v.canonicalizable
    · rw [if_pos hc] at h
      exact ih _ _ (insertSorted_pairwise acc k v hacc) h
    · rw [if_neg hc] at h
      cases h

/-- C2 counterexample: for a concrete envelope the byte string actually
fed to the keyed MAC has its fields in canonical (lexicographically
sorted) order — `ciphertext`, `ephemeral`, `mac` — which differs from
the order the claim states (`ephemeral`, `ciphertext`, `mac`, as
rendered by `specOrderSignableJson`). -/
theorem signable_json_order_counterexample :
    make_signable_json sampleEnvelope =
      .ok "\x7b\"ciphertext\":\"C\",\"ephemeral\":\"E\",\"mac\":\"M\"\x7d" ∧
    specOrderSignableJson sampleEnvelope =
      some "\x7b\"ephemeral\":\"E\",\"ciphertext\":\"C\",\"mac\":\"M\"\x7d" ∧
    ("\x7b\"ciphertext\":\"C\",\"ephemeral\":\"E\",\"mac\":\"M\"\x7d" : String) ≠
      "\x7b\"ephemeral\":\"E\",\"ciphertext\":\"C\",\"mac\":\"M\"\x7d" :=
  ⟨by decide, by decide, by decide⟩

/-- C2 amended: the MAC input is the canonical JSON of the object holding
the `ephemeral`, `ciphertext` and `mac` fields plus the canonicalizable
extra fields, with ALL fields serialized in strictly increasing
(lexicographic) key order — for an envelope without extra fields that is
`ciphertext`, `ephemeral`, `mac`; `sign` attaches exactly the keyed MAC
of that string. -/
theorem signable_json_canonical :
    (∀ (v : EncryptedSessionData) (fields : List (String × Jv)),
      signableFields v = .ok fields →
      fields.Pairwise (fun a b => keyLt a.1 b.1 = true)) ∧
    (∀ (e c m : List Nat) (u : Option EncryptedSessionDataUnsigned),
      signableFields ⟨e, c, m, u, []⟩ =
        .ok [("ciphertext", .str (base64_encode c)),
             ("ephemeral", .str (base64_encode e)),
             ("mac", .str (base64_encode m))]) ∧
    (∀ v : EncryptedSessionData,
      make_signable_json v =
        (signableFields v).map (fun fields => (Jv.obj fields).toJsonString)) ∧
    (∀ (key : HmacSha256Key) (v : EncryptedSessionData) (serialized : String),
      make_signable_json v = .ok serialized →
      key.sign v = .ok { v with unsigned := some (EncryptedSessionDataUnsigned.mk (some (base64_encode (key.calculate_hmac serialized.data)))) }) := by
  refine ⟨?_, fun e c m u => rfl, fun v => rfl, ?_⟩
  · intro v fields h
    unfold signableFields at h
    refine signableFields_go_pairwise v.other _ fields ?_ h
    refine insertSorted_pairwise _ _ _ ?_
    refine insertSorted_pairwise _ _ _ ?_
    refine insertSorted_pairwise _ _ _ ?_
    exact List.Pairwise.nil
  · intro key v serialized h
    unfold HmacSha256Key.sign
    rw [h]

/-- C2 witness: for the sample envelope the signable field list is the
sorted one. -/
theorem signable_json_canonical_witness :
    signableFields sampleEnvelope =
      .ok [("ciphertext", .str "C"), ("ephemeral", .str "E"),
           ("mac", .str "M")] :=
  signable_json_canonical.2.1 [69] [67] [77] none

/-- `Char.ofNat` inverts `Char.toNat` below 256. -/
theorem char_toNat_ofNat (n : Nat) (h : n < 256) : (Char.ofNat n).toNat = n := by
  have hv : n.isValidChar := Or.inl (by omega)
  simp [Char.ofNat, hv, Char.toNat, Char.ofNatAux]
  rfl

/-- Decoding an encoded byte sequence returns the bytes, when each is
below 256. -/
theorem base64_encode_decode (bytes : List Nat) (h : ∀ b ∈ bytes, b < 256) :
    base64_decode (base64_encode bytes) = some bytes := by
  unfold base64_encode base64_decode
  congr 1
  show (bytes.map (fun b => Char.ofNat (b % 256))).map Char.toNat = bytes
  rw [List.map_map]
  have hc : ∀ b ∈ bytes, (Char.toNat ∘ fun b => Char.ofNat (b % 256)) b = id b := by
    intro b hb
    have hlt : b % 256 = b := Nat.mod_eq_of_lt (h b hb)
    simp only [Function.comp]
    rw [char_toNat_ofNat (b % 256) (by omega), hlt]
    rfl
  rw [List.map_congr_left hc, List.map_id]

/-- Every byte of an `hmacSha256` digest is below 256. -/
theorem hmacSha256_bytes_lt (key : List Nat) (msg : List Char) :
    ∀ b ∈ hmacSha256 key msg, b < 256 := by
  intro b hb
  unfold hmacSha256 at hb
  simp at hb
  rcases hb with h | h <;> omega

/-- The extra-field insertion loop succeeds when every extra value is
canonicalizable. -/
theorem signableFields_go_ok (others : List (String × Jv)) :
    ∀ acc, canonicalizableFields others = true →
    ∃ fs, signableFields.go acc others = .ok fs := by
  induction others with
  | nil => exact fun acc _ => ⟨acc, rfl⟩
  | cons hd tl ih =>
    intro acc h
    obtain ⟨k, v⟩ := hd
    rw [canonicalizableFields] at h
    simp only [Bool.and_eq_true] at h
    obtain ⟨h1, h2⟩ := h
    rw [signableFields.go, if_pos h1]
    exact ih _ h2

/-- `make_signable_json` succeeds when every extra value is
canonicalizable. -/
theorem make_signable_json_ok (v : EncryptedSessionData)
    (h : canonicalizableFields v.other = true) :
    ∃ s, make_signable_json v = .ok s := by
  obtain ⟨fs, hfs⟩ := signableFields_go_ok v.other
    (insertSorted (insertSorted (insertSorted []
      "ephemeral" (.str (base64_encode v.ephemeral)))
      "ciphertext" (.str (base64_encode v.ciphertext)))
      "mac" (.str (base64_encode v.mac))) h
  refine ⟨(Jv.obj fs).toJsonString, ?_⟩
  simp only [make_signable_json, signableFields]
  rw [hfs]
  rfl

/-- C5 counterexample: for an envelope whose extra field cannot be
canonicalized and which carries no unsigned MAC field, `verify` fails
with `NotAnObject`, not with `NoSignatureFound` as the claim states for
every envelope without the MAC field. -/
theorem verify_errors_counterexample :
    envBackupMac sampleFloatEnvelope = none ∧
    HmacSha256Key.verify ([0] : HmacSha256Key) sampleFloatEnvelope =
      .error .NotAnObject ∧
    (Except.error SignatureError.NotAnObject : Except SignatureError Unit) ≠
      .error .NoSignatureFound :=
  ⟨rfl, rfl, by decide⟩

/-- C5 amended: for every envelope whose extra fields are all
canonicalizable, `verify` succeeds iff the envelope carries an unsigned
backup MAC matching the keyed MAC of the envelope's canonical JSON;
`verify(sign(envelope))` succeeds; `verify` fails with `NoSignatureFound`
when the MAC field is absent and with `InvalidSignature` when it is
present but does not match.  (An envelope with a non-canonicalizable
extra field makes both `sign` and `verify` fail with `NotAnObject`
before the MAC field is consulted.) -/
theorem verify_characterization (key : HmacSha256Key)
    (v : EncryptedSessionData)
    (hcanon : canonicalizableFields v.other = true) :
    (key.verify v = .ok () ↔ macMatches key v) ∧
    (envBackupMac v = none → key.verify v = .error .NoSignatureFound) ∧
    (∀ mac, envBackupMac v = some mac → ¬ macMatches key v →
      key.verify v = .error .InvalidSignature) ∧
    (∀ v', key.sign v = .ok v' → key.verify v' = .ok ()) := by
  obtain ⟨s, hs⟩ := make_signable_json_ok v hcanon
  have hsign4 : ∀ v', key.sign v = .ok v' → key.verify v' = .ok () := by
    intro v' hsg
    unfold HmacSha256Key.sign at hsg
    rw [hs] at hsg
    cases hsg
    unfold HmacSha256Key.verify
    have hs' : make_signable_json { v with unsigned := some (EncryptedSessionDataUnsigned.mk (some (base64_encode (key.calculate_hmac s.data)))) } = .ok s := hs
    rw [hs']
    simp only [envBackupMac, Option.bind]
    rw [base64_encode_decode (key.calculate_hmac s.data)
      (hmacSha256_bytes_lt key s.data)]
    show (if key.calculate_hmac s.data = key.calculate_hmac s.data
      then (Except.ok () : Except SignatureError Unit)
      else .error .InvalidSignature) = .ok ()
    rw [if_pos rfl]
  cases hm : envBackupMac v with
  | none =>
    have hv : key.verify v = .error .NoSignatureFound := by
      unfold HmacSha256Key.verify
      rw [hs, hm]
    refine ⟨⟨?_, ?_⟩, fun _ => hv, ?_, hsign4⟩
    · intro hok
      rw [hv] at hok
      cases hok
    · rintro ⟨s', m', h1, h2, h3⟩
      rw [hm] at h2
      cases h2
    · intro mac hmac
      cases hmac
  | some mac =>
    have hv : key.verify v =
        if key.calculate_hmac s.data = mac.data.map Char.toNat then .ok ()
        else .error .InvalidSignature := by
      unfold HmacSha256Key.verify
      rw [hs, hm]
      rfl
    by_cases hcond : key.calculate_hmac s.data = mac.data.map Char.toNat
    · rw [if_pos hcond] at hv
      have hmm : macMatches key v := ⟨s, mac, hs, hm, by rw [hcond]; rfl⟩
      refine ⟨⟨fun _ => hmm, fun _ => hv⟩, ?_, ?_, hsign4⟩
      · intro h
        cases h
      · intro mac' _ hnot
        exact absurd hmm hnot
    · rw [if_neg hcond] at hv
      have hnm : ¬ macMatches key v := by
        rintro ⟨s', m', h1, h2, h3⟩
        rw [hs] at h1
        cases h1
        rw [hm] at h2
        cases h2
        exact hcond (Option.some.inj h3).symm
      refine ⟨⟨?_, fun hmm => absurd hmm hnm⟩, ?_, ?_, hsign4⟩
      · intro hok
        rw [hv] at hok
        cases hok
      · intro h
        cases h
      · intro mac' hmac' hnot
        exact hv

/-- C5 witness: verifying the sample envelope, which carries no unsigned
MAC field, fails with `NoSignatureFound`. -/
theorem verify_characterization_witness :
    HmacSha256Key.verify ([7] : HmacSha256Key) sampleEnvelope =
      .error .NoSignatureFound :=
  (verify_characterization [7] sampleEnvelope rfl).2.1 rfl

end MatrixSdkCrypto
